import Mathlib

/-!
Shallow embedding of the migration pipeline core of
`src/dashboard/migration_engine.py` (loki-mode repository).

Python dictionaries are modelled as association lists with first-match
lookup; JSON artifact files on disk are modelled by an inductive that
distinguishes an absent file, a file that is present but fails
parse/typecheck (carrying the Python exception text), and a file that
parses to a typed value.  Opaque `Any`-valued payloads that the embedded
code only ever reads with string `.get` calls (`source_info`,
`target_info`) are modelled as string-to-string association lists.
Stateful operations take the directory/git state as an explicit `Env`
and return the new state together with an `Except` result, so that a
raising path is the `Except.error` case and the returned `Env` is the
state after the raise.
-/

namespace MigrationEngine

/-- Phase ordering for gate validation (PHASE_ORDER in the source). -/
def PHASE_ORDER : List String := ["understand", "guardrail", "migrate", "verify"]

/-- One value of the `phases` dict of a manifest: a JSON object that may
or may not carry each of the three keys the code reads or writes.
`none` models an absent key. -/
structure PhaseEntry where
  status : Option String
  started_at : Option String
  completed_at : Option String
deriving Repr, DecidableEq

/-- Dataclass `Feature` from the source, all fields with their defaults. -/
structure Feature where
  id : String
  category : String := ""
  description : String := ""
  verification_steps : List String := []
  passes : Bool := false
  characterization_test : String := ""
  risk : String := "low"
  notes : String := ""
deriving Repr, DecidableEq

/-- Dataclass `MigrationStep` from the source. -/
structure MigrationStep where
  id : String
  description : String := ""
  type : String := ""
  files : List String := []
  tests_required : List String := []
  estimated_tokens : Int := 0
  risk : String := "low"
  rollback_point : Bool := false
  depends_on : List String := []
  assigned_agent : String := ""
  status : String := "pending"
deriving Repr, DecidableEq

/-- Dataclass `MigrationPlan` from the source (`exit_criteria` is an
opaque string-keyed mapping, modelled with string values). -/
structure MigrationPlan where
  version : Int := 1
  strategy : String := "incremental"
  constraints : List String := []
  steps : List MigrationStep := []
  rollback_strategy : String := "checkpoint"
  exit_criteria : List (String × String) := []
deriving Repr, DecidableEq

/-- Dataclass `MigrationManifest` from the source. -/
structure Manifest where
  id : String := ""
  created_at : String := ""
  source_info : List (String × String) := []
  target_info : List (String × String) := []
  phases : List (String × PhaseEntry) := []
  feature_list_path : String := ""
  migration_plan_path : String := ""
  checkpoints : List String := []
deriving Repr, DecidableEq

/-- Checkpoint metadata record written by `create_checkpoint`. -/
structure CpMeta where
  step_id : String
  tag : String
  created_at : String
deriving Repr, DecidableEq

/-- State of one JSON file on disk: absent, present but failing
parse or typecheck (the string is the Python exception text), or
parsing to a typed value after the permissive field filtering the
source performs on load. -/
inductive JFile (α : Type) where
  | absent : JFile α
  | corruptFile (excMsg : String) : JFile α
  | valid (v : α) : JFile α
deriving Repr, DecidableEq

/-- Python exceptions raised by the embedded operations. -/
inductive PyErr where
  | valueError (msg : String)
  | runtimeError (msg : String)
  | keyError (key : String)
  | fileNotFoundError
  | corruptError (msg : String)
  | attributeError
  | osError
deriving Repr, DecidableEq

/-- Migration directory plus git repository state seen by one pipeline. -/
structure Env where
  manifestFile : JFile Manifest
  /-- Result of any(docs_dir.iterdir()) if docs_dir.exists() else False. -/
  docsNonempty : Bool
  /-- Result of seams_path.exists() for seams.json. -/
  seamsExists : Bool
  featuresFile : JFile (List Feature)
  planFile : JFile MigrationPlan
  /-- Files checkpoints/<step_id>.json, first-match lookup; a step
  absent from the list has no metadata file. -/
  cpMeta : List (String × JFile CpMeta)
  /-- Git tags currently existing in the target codebase repository. -/
  tags : List String
deriving Repr, DecidableEq

instance {ε α : Type} [DecidableEq ε] [DecidableEq α] : DecidableEq (Except ε α) :=
  fun x y =>
    match x, y with
    | .ok a, .ok b =>
        if h : a = b then isTrue (by rw [h])
        else isFalse (by intro hc; cases hc; exact h rfl)
    | .error a, .error b =>
        if h : a = b then isTrue (by rw [h])
        else isFalse (by intro hc; cases hc; exact h rfl)
    | .ok _, .error _ => isFalse (by intro hc; cases hc)
    | .error _, .ok _ => isFalse (by intro hc; cases hc)

/-- Dict lookup (first match) on an association list. -/
def alookup {α : Type} (l : List (String × α)) (k : String) : Option α :=
  (l.find? (fun p => p.1 == k)).map Prod.snd

/-- Dict membership test: `k in d` in Python. -/
def akey {α : Type} (l : List (String × α)) (k : String) : Bool :=
  (l.find? (fun p => p.1 == k)).isSome

/-- In-place update of the entry at key `k` (Python item assignment on
an existing key). -/
def aupdate {α : Type} (l : List (String × α)) (k : String) (f : α → α) :
    List (String × α) :=
  l.map (fun p => if p.1 == k then (p.1, f p.2) else p)

/-- d.get(phase, default dict).get("status", "pending") from the source. -/
def phaseStatus (phases : List (String × PhaseEntry)) (phase : String) : String :=
  match alookup phases phase with
  | some e => e.status.getD "pending"
  | none => "pending"

/-- PHASE_ORDER.index(p) followed by the bounds-checked successor
lookup that advance_phase performs. -/
def succPhase (phase : String) : Option String :=
  match PHASE_ORDER.findIdx? (fun q => q == phase) with
  | some i => PHASE_ORDER.get? (i + 1)
  | none => none

/-- Adjacency test used by both gate checkers:
to_idx == from_idx + 1 over PHASE_ORDER. -/
def adjacentPhases (from_phase to_phase : String) : Bool :=
  match PHASE_ORDER.findIdx? (fun q => q == from_phase),
        PHASE_ORDER.findIdx? (fun q => q == to_phase) with
  | some i, some j => j == i + 1
  | _, _ => false

/-- Method load_features: loads features.json, re-raising
FileNotFoundError and parse/typecheck errors after logging. -/
def load_features (env : Env) : Except PyErr (List Feature) :=
  match env.featuresFile with
  | .absent => .error .fileNotFoundError
  | .corruptFile m => .error (.corruptError m)
  | .valid fs => .ok fs

/-- Method load_plan: loads migration-plan.json, re-raising
FileNotFoundError and parse/typecheck errors after logging. -/
def load_plan (env : Env) : Except PyErr MigrationPlan :=
  match env.planFile with
  | .absent => .error .fileNotFoundError
  | .corruptFile m => .error (.corruptError m)
  | .valid p => .ok p

/-- Method _load_manifest_unlocked: loads manifest.json, filtering to
known dataclass fields, re-raising absence and parse/typecheck errors. -/
def load_manifest_unlocked (env : Env) : Except PyErr Manifest :=
  match env.manifestFile with
  | .absent => .error .fileNotFoundError
  | .corruptFile m => .error (.corruptError m)
  | .valid m => .ok m

/-- Method _check_phase_gate_unlocked from the source: validates the
transition without touching the lock, reading the artifact files
inline and converting every artifact problem into a (false, reason)
verdict. -/
def check_phase_gate_unlocked (env : Env) (from_phase to_phase : String) :
    Bool × String :=
  if ¬ (PHASE_ORDER.contains from_phase ∧ PHASE_ORDER.contains to_phase) then
    (false, "Unknown phase: " ++ from_phase ++ " or " ++ to_phase)
  else if ¬ adjacentPhases from_phase to_phase then
    (false, "Cannot jump from " ++ from_phase ++ " to " ++ to_phase)
  else if from_phase == "understand" && to_phase == "guardrail" then
    if ¬ env.docsNonempty then
      (false, "Phase gate failed: no documentation generated in docs/")
    else if ¬ env.seamsExists then
      (false, "Phase gate failed: seams.json does not exist")
    else
      (true, "Gate passed: docs generated and seams.json exists")
  else if from_phase == "guardrail" && to_phase == "migrate" then
    match env.featuresFile with
    | .absent => (false, "Phase gate failed: features.json not found")
    | .corruptFile exc =>
        (false, "Phase gate failed: features.json is invalid: " ++ exc)
    | .valid features =>
        if features.isEmpty then (false, "No features defined")
        else
          let failing := features.filter (fun f => !f.passes)
          if failing.isEmpty then
            (true, "Gate passed: all characterization tests pass")
          else
            let ids := String.intercalate ", " ((failing.take 5).map Feature.id)
            (false, "Phase gate failed: " ++ toString failing.length ++
              " characterization tests not passing (" ++ ids ++ ")")
  else if from_phase == "migrate" && to_phase == "verify" then
    match env.planFile with
    | .absent => (false, "Phase gate failed: migration-plan.json not found")
    | .corruptFile exc =>
        (false, "Phase gate failed: migration-plan.json is invalid: " ++ exc)
    | .valid plan =>
        let incomplete := plan.steps.filter (fun s => !(s.status == "completed"))
        if incomplete.isEmpty then
          (true, "Gate passed: all migration steps completed")
        else
          let ids := String.intercalate ", " ((incomplete.take 5).map MigrationStep.id)
          (false, "Phase gate failed: " ++ toString incomplete.length ++
            " steps not completed (" ++ ids ++ ")")
  else
    (true, "Gate passed")

/-- Method check_phase_gate from the source: the standalone variant.
It reads the artifacts through load_features / load_plan and catches
only FileNotFoundError around those calls, so a present-but-invalid
artifact propagates as an exception. -/
def check_phase_gate (env : Env) (from_phase to_phase : String) :
    Except PyErr (Bool × String) :=
  if ¬ (PHASE_ORDER.contains from_phase ∧ PHASE_ORDER.contains to_phase) then
    .ok (false, "Unknown phase: " ++ from_phase ++ " or " ++ to_phase)
  else if ¬ adjacentPhases from_phase to_phase then
    .ok (false, "Cannot jump from " ++ from_phase ++ " to " ++ to_phase)
  else if from_phase == "understand" && to_phase == "guardrail" then
    if ¬ env.docsNonempty then
      .ok (false, "Phase gate failed: no documentation generated in docs/")
    else if ¬ env.seamsExists then
      .ok (false, "Phase gate failed: seams.json does not exist")
    else
      .ok (true, "Gate passed: docs generated and seams.json exists")
  else if from_phase == "guardrail" && to_phase == "migrate" then
    match load_features env with
    | .error .fileNotFoundError =>
        .ok (false, "Phase gate failed: features.json not found")
    | .error e => .error e
    | .ok features =>
        if features.isEmpty then .ok (false, "No features defined")
        else
          let failing := features.filter (fun f => !f.passes)
          if failing.isEmpty then
            .ok (true, "Gate passed: all characterization tests pass")
          else
            let ids := String.intercalate ", " ((failing.take 5).map Feature.id)
            .ok (false, "Phase gate failed: " ++ toString failing.length ++
              " characterization tests not passing (" ++ ids ++ ")")
  else if from_phase == "migrate" && to_phase == "verify" then
    match load_plan env with
    | .error .fileNotFoundError =>
        .ok (false, "Phase gate failed: migration-plan.json not found")
    | .error e => .error e
    | .ok plan =>
        let incomplete := plan.steps.filter (fun s => !(s.status == "completed"))
        if incomplete.isEmpty then
          .ok (true, "Gate passed: all migration steps completed")
        else
          let ids := String.intercalate ", " ((incomplete.take 5).map MigrationStep.id)
          .ok (false, "Phase gate failed: " ++ toString incomplete.length ++
            " steps not completed (" ++ ids ++ ")")
  else
    .ok (true, "Gate passed")

/-- Dataclass PhaseResult from the source. -/
structure PhaseResult where
  phase : String
  status : String
  artifacts : List String := []
  started_at : String := ""
  completed_at : String := ""
  error : String := ""
deriving Repr, DecidableEq

/-- Manifest built by create_manifest: understand starts in_progress
with a start timestamp, all other phases pending; empty checkpoint
list.  The `ts` argument is the timestamp string. -/
def create_manifest_value (migration_id ts codebase_path source_type target : String) :
    Manifest :=
  { id := migration_id
    created_at := ts
    source_info := [("path", codebase_path), ("type", source_type)]
    target_info := [("target", target)]
    phases := PHASE_ORDER.map (fun phase =>
      (phase,
        { status := some (if phase == "understand" then "in_progress" else "pending")
          started_at := some (if phase == "understand" then ts else "")
          completed_at := some "" }))
    feature_list_path := ""
    migration_plan_path := ""
    checkpoints := [] }

/-- Method create_manifest: builds the initial manifest and saves it. -/
def create_manifest (env : Env) (migration_id ts codebase_path source_type target : String) :
    Env × Manifest :=
  let m := create_manifest_value migration_id ts codebase_path source_type target
  ({ env with manifestFile := .valid m }, m)

/-- Method start_phase from the source: transitions a phase from
pending to in_progress, idempotent when already in_progress.  Reads
the status by direct item access, so a missing key raises KeyError.
Returns the final environment together with the result. -/
def start_phase (env : Env) (now phase : String) : Env × Except PyErr Unit :=
  if ¬ PHASE_ORDER.contains phase then
    (env, .error (.valueError ("Unknown phase: " ++ phase)))
  else
    match load_manifest_unlocked env with
    | .error e => (env, .error e)
    | .ok manifest =>
      match alookup manifest.phases phase with
      | none => (env, .error (.keyError phase))
      | some entry =>
        match entry.status with
        | none => (env, .error (.keyError "status"))
        | some current_status =>
          if current_status == "in_progress" then
            (env, .ok ())
          else if current_status ≠ "pending" then
            (env, .error (.runtimeError ("Cannot start phase: status is " ++
              current_status ++ ", expected pending")))
          else
            let manifest' := { manifest with
              phases := aupdate manifest.phases phase (fun e =>
                { e with status := some "in_progress", started_at := some now }) }
            ({ env with manifestFile := .valid manifest' }, .ok ())

/-- Gate enforcement step of advance_phase: when a successor exists,
its gate is consulted and a failure raised. -/
def advance_gate_check (env : Env) (phase : String) : Except PyErr Unit :=
  match succPhase phase with
  | none => .ok ()
  | some np =>
    let (allowed, reason) := check_phase_gate_unlocked env phase np
    if allowed then .ok ()
    else .error (.runtimeError ("Phase gate failed: " ++ reason))

/-- Status verification step of advance_phase: only performed when the
phases dict contains the key. -/
def advance_status_check (manifest : Manifest) (phase : String) :
    Except PyErr Unit :=
  if akey manifest.phases phase then
    if phaseStatus manifest.phases phase ≠ "in_progress" then
      .error (.runtimeError ("Cannot advance phase: status is " ++
        phaseStatus manifest.phases phase ++ ", expected in_progress"))
    else .ok ()
  else .ok ()

/-- Completion marking of advance_phase, again guarded by membership. -/
def advance_mark_completed (manifest : Manifest) (now phase : String) : Manifest :=
  if akey manifest.phases phase then
    { manifest with phases := aupdate manifest.phases phase (fun e =>
        { e with status := some "completed", completed_at := some now }) }
  else manifest

/-- Method advance_phase from the source: checks the gate first when a
successor exists, then loads the manifest, verifies the status of the
given phase only when the phases dict contains it, marks it completed,
starts the successor by direct item access (KeyError when absent), and
saves.  Returns the final environment together with the result. -/
def advance_phase (env : Env) (now phase : String) :
    Env × Except PyErr PhaseResult :=
  if ¬ PHASE_ORDER.contains phase then
    (env, .error (.valueError ("Unknown phase: " ++ phase)))
  else
    match advance_gate_check env phase with
    | .error e => (env, .error e)
    | .ok () =>
      match load_manifest_unlocked env with
      | .error e => (env, .error e)
      | .ok manifest =>
        match advance_status_check manifest phase with
        | .error e => (env, .error e)
        | .ok () =>
          let manifest1 := advance_mark_completed manifest now phase
          match succPhase phase with
          | some np =>
            if akey manifest1.phases np then
              let manifest2 := { manifest1 with
                phases := aupdate manifest1.phases np (fun e =>
                  { e with status := some "in_progress", started_at := some now }) }
              ({ env with manifestFile := .valid manifest2 },
               .ok { phase := phase, status := "completed", completed_at := now })
            else
              (env, .error (.keyError np))
          | none =>
            ({ env with manifestFile := .valid manifest1 },
             .ok { phase := phase, status := "completed", completed_at := now })

/-- Character class of the step_id validation regex [a-zA-Z0-9_-]. -/
def isStepIdChar (c : Char) : Bool :=
  c.isAlphanum || c == '_' || c == '-'

/-- Static method _validate_step_id: re.match of [a-zA-Z0-9_-]+ over
the whole string, so nonempty and all characters in the class. -/
def valid_step_id (s : String) : Bool :=
  (!s.data.isEmpty) && s.data.all isStepIdChar

/-- Tag name loki-migrate/step/pre built by the checkpoint manager. -/
def mkTag (step_id : String) : String :=
  "loki-migrate/" ++ step_id ++ "/pre"

/-- Which of the failure paths that the source handles with explicit
except-branches occur during one create_checkpoint call: a non-zero
git tag creation (beyond the duplicate-tag case the tag list already
captures), an OSError from the atomic manifest save, a non-zero
git tag -d during compensation, and an OSError from the atomic write
of the per-step metadata file. -/
structure FailureModel where
  tagCreateFails : Bool := false
  manifestSaveFails : Bool := false
  tagDeleteFails : Bool := false
  metaWriteFails : Bool := false
deriving Repr, DecidableEq

/-- Manifest update step of create_checkpoint, performed under the
lock: load the manifest, append the tag to its checkpoint list and
save; the load may raise and the save may fail with an OSError. -/
def checkpoint_record_tag (env1 : Env) (fm : FailureModel) (tag_name : String) :
    Except PyErr Env :=
  match load_manifest_unlocked env1 with
  | .error e => .error e
  | .ok manifest =>
    if fm.manifestSaveFails then .error .osError
    else
      let manifest1 := { manifest with
        checkpoints := manifest.checkpoints ++ [tag_name] }
      .ok { env1 with manifestFile := JFile.valid manifest1 }

/-- Method create_checkpoint from the source: validate the step id,
create the git tag (failing when the tag already exists or git fails),
append the tag to the manifest checkpoint list under the lock and save,
deleting the tag as best-effort compensation when that load-or-save
raises, and finally write the per-step metadata file.  Returns the
final environment together with the result. -/
def create_checkpoint (env : Env) (fm : FailureModel) (now step_id : String) :
    Env × Except PyErr String :=
  if ¬ valid_step_id step_id then
    (env, .error (.valueError ("Invalid step_id: " ++ step_id)))
  else
    let tag_name := mkTag step_id
    if fm.tagCreateFails || env.tags.contains tag_name then
      (env, .error (.runtimeError "Git tag creation failed"))
    else
      let env1 := { env with tags := env.tags ++ [tag_name] }
      match checkpoint_record_tag env1 fm tag_name with
      | .error e =>
        let env2 :=
          if fm.tagDeleteFails then env1
          else { env1 with tags := env1.tags.erase tag_name }
        (env2, .error e)
      | .ok env2 =>
        if fm.metaWriteFails then (env2, .error .osError)
        else
          ({ env2 with
              cpMeta := (step_id, .valid ⟨step_id, tag_name, now⟩) :: env2.cpMeta },
           .ok tag_name)

/-- Method rollback_to_checkpoint: validates the step id and runs a
hard reset to the tag; git exits non-zero when the tag is missing.
The working tree reset itself is outside the modelled state. -/
def rollback_to_checkpoint (env : Env) (step_id : String) :
    Env × Except PyErr Unit :=
  if ¬ valid_step_id step_id then
    (env, .error (.valueError ("Invalid step_id: " ++ step_id)))
  else if env.tags.contains (mkTag step_id) then (env, .ok ())
  else (env, .error (.runtimeError "Git rollback failed"))

/-- Resolved last-checkpoint record of the progress summary. -/
structure LastCheckpoint where
  tag : String
  step_id : String
  timestamp : String
deriving Repr, DecidableEq

/-- Dict returned by get_progress. -/
structure ProgressSummary where
  migration_id : String
  status : String
  current_phase : String
  phases : List (String × PhaseEntry)
  completed_phases : List String
  source : List (String × String)
  target : List (String × String)
  current_step : Option String
  features_passing : Nat
  features_total : Nat
  steps_current : Nat
  steps_completed : Nat
  steps_total : Nat
  last_checkpoint : Option LastCheckpoint
  checkpoints_count : Nat
deriving Repr, DecidableEq

/-- Split of a character list at a separator character; models the
Python str.split used on checkpoint tag names. -/
def splitCharList (c : Char) : List Char → List (List Char)
  | [] => [[]]
  | a :: rest =>
    let r := splitCharList c rest
    if a == c then [] :: r
    else
      match r with
      | [] => [[a]]
      | h :: t => (a :: h) :: t

/-- last_tag.split over the slash character, returning strings. -/
def pySplitSlash (s : String) : List String :=
  (splitCharList '/' s.data).map String.mk

/-- The phase loop of get_progress: walks PHASE_ORDER carrying the
current phase, the overall status and the completed list, breaking at
the first in_progress phase. -/
def progress_phase_scan (phases : List (String × PhaseEntry)) :
    List String → String → String → List String → String × String × List String
  | [], cur, overall, comp => (cur, overall, comp)
  | p :: rest, cur, overall, comp =>
    let st := phaseStatus phases p
    if st == "in_progress" then (p, "in_progress", comp)
    else if st == "completed" then
      progress_phase_scan phases rest p "completed" (comp ++ [p])
    else progress_phase_scan phases rest cur overall comp

/-- Method get_progress from the source: loads the manifest, derives
the current phase and overall status, tolerates absent or corrupt
features and plan files by zeroed counts, and resolves the last
checkpoint tag against its metadata file, falling back to a partial
record when that file is absent or unreadable. -/
def get_progress (env : Env) (migration_id : String) :
    Except PyErr ProgressSummary :=
  match load_manifest_unlocked env with
  | .error e => .error e
  | .ok manifest =>
    let (current_phase, overall_status, completed_phases) :=
      progress_phase_scan manifest.phases PHASE_ORDER "pending" "pending" []
    let (features_passing, features_total) :=
      match load_features env with
      | .ok fs => ((fs.filter (fun f : Feature => f.passes)).length, fs.length)
      | .error _ => (0, 0)
    let (steps_total, steps_completed, current_step, steps_current) :=
      match load_plan env with
      | .ok plan =>
        let total := plan.steps.length
        let completed := (plan.steps.filter (fun s : MigrationStep => s.status == "completed")).length
        let in_progress := plan.steps.filter (fun s : MigrationStep => s.status == "in_progress")
        let cur := in_progress.head?.map MigrationStep.id
        (total, completed, cur, if total ≠ 0 then min (completed + 1) total else 0)
      | .error _ => (0, 0, none, 0)
    let last_checkpoint : Option LastCheckpoint :=
      match manifest.checkpoints.getLast? with
      | none => none
      | some last_tag =>
        match (pySplitSlash last_tag).get? 1 with
        | none => none
        | some cp_step =>
          match alookup env.cpMeta cp_step with
          | some (.valid meta) => some ⟨meta.tag, meta.step_id, meta.created_at⟩
          | _ => some ⟨last_tag, "", ""⟩
    .ok { migration_id := migration_id
          status := overall_status
          current_phase := current_phase
          phases := manifest.phases
          completed_phases := completed_phases
          source := manifest.source_info
          target := manifest.target_info
          current_step := current_step
          features_passing := features_passing
          features_total := features_total
          steps_current := steps_current
          steps_completed := steps_completed
          steps_total := steps_total
          last_checkpoint := last_checkpoint
          checkpoints_count := manifest.checkpoints.length }

/-- Raw manifest document as the registry reads it: a JSON object with
optional string id and created_at, object-valued source_info,
target_info and phases.  Shapes where one of those accesses would not
be an object are covered by RegManifestFile.badShape. -/
structure RegManifestData where
  id : Option String := none
  created_at : Option String := none
  source_info : List (String × String) := []
  target_info : List (String × String) := []
  phases : List (String × PhaseEntry) := []
deriving Repr, DecidableEq

/-- A manifest.json as found by the registry scan: unreadable or
invalid JSON (JSONDecodeError or OSError, both caught and skipped),
valid JSON of a shape on which one of the attribute accesses of the
listing code raises AttributeError, or a well-shaped document. -/
inductive RegManifestFile where
  | invalidJson (excMsg : String)
  | badShape
  | parsed (d : RegManifestData)
deriving Repr, DecidableEq

/-- One child of the migrations root directory. -/
inductive DirChild where
  | notDir
  | noManifest
  | withManifest (f : RegManifestFile)
deriving Repr, DecidableEq

/-- One entry of the list returned by list_migrations. -/
structure RegEntry where
  id : String
  created_at : String
  source : List (String × String)
  source_path : String
  target : String
  status : String
deriving Repr, DecidableEq

/-- The status loop of list_migrations: priority
in_progress over completed over pending, breaking at in_progress. -/
def reg_status_scan (phases : List (String × PhaseEntry)) :
    List String → String → String
  | [], st => st
  | p :: rest, st =>
    let ps := phaseStatus phases p
    if ps == "in_progress" then "in_progress"
    else if ps == "completed" then reg_status_scan phases rest "completed"
    else reg_status_scan phases rest st

/-- Lexicographic comparison of character lists by code point,
modelling Python string ordering for sorted(). -/
def lexLe : List Char → List Char → Bool
  | [], _ => true
  | _ :: _, [] => false
  | a :: as, b :: bs => if a == b then lexLe as bs else decide (a < b)

/-- Name order used by the directory scan. -/
def nameLe (a b : String × DirChild) : Prop :=
  lexLe a.1.data b.1.data = true

instance : DecidableRel nameLe := fun a b => by
  unfold nameLe; exact inferInstance

/-- sorted(migrations_path.iterdir()) of the source. -/
def sortByName (l : List (String × DirChild)) : List (String × DirChild) :=
  l.insertionSort nameLe

/-- Body of the scan loop of list_migrations over the already-sorted
children. -/
def list_migrations_scan : List (String × DirChild) → Except PyErr (List RegEntry)
  | [] => .ok []
  | (name, child) :: rest =>
    match child with
    | .notDir => list_migrations_scan rest
    | .noManifest => list_migrations_scan rest
    | .withManifest (.invalidJson _) => list_migrations_scan rest
    | .withManifest .badShape => .error .attributeError
    | .withManifest (.parsed d) =>
      let status := reg_status_scan d.phases PHASE_ORDER "pending"
      let e : RegEntry :=
        { id := d.id.getD name
          created_at := d.created_at.getD ""
          source := d.source_info
          source_path := (alookup d.source_info "path").getD ""
          target := (alookup d.target_info "target").getD ""
          status := status }
      match list_migrations_scan rest with
      | .error er => .error er
      | .ok es => .ok (e :: es)

/-- Function list_migrations from the source: none models an absent
migrations root (empty result), otherwise the children are scanned in
sorted order; invalid-JSON manifests are skipped with a warning while
an AttributeError from a wrong-shaped document propagates. -/
def list_migrations (root : Option (List (String × DirChild))) :
    Except PyErr (List RegEntry) :=
  match root with
  | none => .ok []
  | some l => list_migrations_scan (sortByName l)

/-! Statement-level helper definitions used by the verification
theorems below. -/

/-- Prefix test on character lists. -/
def listPrefixOf : List Char → List Char → Bool
  | [], _ => true
  | _ :: _, [] => false
  | a :: as, b :: bs => a == b && listPrefixOf as bs

/-- Substring occurrence test on character lists. -/
def listSubstr (pat : List Char) : List Char → Bool
  | [] => listPrefixOf pat []
  | b :: rest => listPrefixOf pat (b :: rest) || listSubstr pat rest

/-- Substring containment on strings. -/
def strContainsSub (s pat : String) : Bool :=
  listSubstr pat.data s.data

/-- True unless the file is present but unparseable. -/
def notCorrupt {α : Type} : JFile α → Bool
  | .corruptFile _ => false
  | _ => true

/-- True exactly when the file parses to a value. -/
def isValidFile {α : Type} : JFile α → Bool
  | .valid _ => true
  | _ => false

/-- An environment with a given manifest file and no other artifacts;
docs and seams are present so the understand gate passes. -/
def mkEnv (mf : JFile Manifest) : Env :=
  { manifestFile := mf, docsNonempty := true, seamsExists := true,
    featuresFile := .absent, planFile := .absent, cpMeta := [], tags := [] }

/-- First phase of PHASE_ORDER whose status is not completed. -/
def firstNonCompleted (m : Manifest) : Option String :=
  PHASE_ORDER.find? (fun p => !(phaseStatus m.phases p == "completed"))

/-- The invariant claimed by the spec: every in_progress phase is the
first non-completed phase in PHASE_ORDER, hence at most one phase is
in_progress. -/
def singleInProgress (m : Manifest) : Bool :=
  PHASE_ORDER.all fun p =>
    !(phaseStatus m.phases p == "in_progress") ||
      (firstNonCompleted m == some p)

/-- Manifest states reachable from create_manifest by successful
start_phase and advance_phase calls; the artifact files and timestamps
are free to vary between calls. -/
inductive ReachSA : Manifest → Prop where
  | init (mid ts cp st tg : String) :
      ReachSA (create_manifest_value mid ts cp st tg)
  | start (m : Manifest) (env env' : Env) (now phase : String) (m' : Manifest) :
      ReachSA m → env.manifestFile = .valid m →
      start_phase env now phase = (env', .ok ()) →
      env'.manifestFile = .valid m' → ReachSA m'
  | advance (m : Manifest) (env env' : Env) (now phase : String)
      (r : PhaseResult) (m' : Manifest) :
      ReachSA m → env.manifestFile = .valid m →
      advance_phase env now phase = (env', .ok r) →
      env'.manifestFile = .valid m' → ReachSA m'

/-- Manifest states reachable from create_manifest by successful
advance_phase calls alone. -/
inductive ReachAdv : Manifest → Prop where
  | init (mid ts cp st tg : String) :
      ReachAdv (create_manifest_value mid ts cp st tg)
  | advance (m : Manifest) (env env' : Env) (now phase : String)
      (r : PhaseResult) (m' : Manifest) :
      ReachAdv m → env.manifestFile = .valid m →
      advance_phase env now phase = (env', .ok r) →
      env'.manifestFile = .valid m' → ReachAdv m'

/-- Later states of a manifest under successful advance_phase calls. -/
inductive AdvSeq : Manifest → Manifest → Prop where
  | refl (m : Manifest) : AdvSeq m m
  | step (m m1 : Manifest) (env env' : Env) (now phase : String)
      (r : PhaseResult) (m2 : Manifest) :
      AdvSeq m m1 → env.manifestFile = .valid m1 →
      advance_phase env now phase = (env', .ok r) →
      env'.manifestFile = .valid m2 → AdvSeq m m2

/-- Status lists of well-formed frontier manifests: the first k phases
completed, then one in_progress when any phase is left, then pending. -/
def frontierStatuses : Nat → List String
  | 0 => ["in_progress", "pending", "pending", "pending"]
  | 1 => ["completed", "in_progress", "pending", "pending"]
  | 2 => ["completed", "completed", "in_progress", "pending"]
  | 3 => ["completed", "completed", "completed", "in_progress"]
  | _ + 4 => ["completed", "completed", "completed", "completed"]

/-- Inductive invariant of the advance-only state machine: the phases
dict has exactly the four ordered keys and the statuses form a
frontier. -/
def Inv (m : Manifest) : Prop :=
  ∃ e1 e2 e3 e4 k,
    m.phases = [("understand", e1), ("guardrail", e2),
                ("migrate", e3), ("verify", e4)] ∧
    [e1.status, e2.status, e3.status, e4.status] =
      (frontierStatuses k).map some

/-- Environment states reachable by checkpoint operations from a fresh
manifest, with any per-call failure pattern; the state after a raising
call is included. -/
inductive ReachCp : Env → Prop where
  | init (env : Env) (mid ts cp st tg : String) :
      env.manifestFile = .valid (create_manifest_value mid ts cp st tg) →
      ReachCp env
  | create (env : Env) (fm : FailureModel) (now step_id : String) :
      ReachCp env → ReachCp (create_checkpoint env fm now step_id).1
  | rollback (env : Env) (step_id : String) :
      ReachCp env → ReachCp (rollback_to_checkpoint env step_id).1

/-- Environment states reachable by checkpoint operations whose
metadata writes all succeed (other failures still allowed). -/
inductive ReachCpMetaOk : Env → Prop where
  | init (env : Env) (mid ts cp st tg : String) :
      env.manifestFile = .valid (create_manifest_value mid ts cp st tg) →
      ReachCpMetaOk env
  | create (env : Env) (fm : FailureModel) (now step_id : String) :
      ReachCpMetaOk env → fm.metaWriteFails = false →
      ReachCpMetaOk (create_checkpoint env fm now step_id).1
  | rollback (env : Env) (step_id : String) :
      ReachCpMetaOk env → ReachCpMetaOk (rollback_to_checkpoint env step_id).1

/-- Checkpoint consistency invariant: every checkpoint list entry of
the persisted manifest is an existing tag of the deterministic form
and has a metadata file recording its step and tag. -/
def cpInv (env : Env) : Prop :=
  ∀ m, env.manifestFile = .valid m →
    ∀ t ∈ m.checkpoints, t ∈ env.tags ∧
      ∃ s c, t = mkTag s ∧ alookup env.cpMeta s = some (.valid ⟨s, t, c⟩)

/-- A directory child whose manifest does not make the registry raise. -/
def childOk : DirChild → Bool
  | .withManifest .badShape => false
  | _ => true

/-- A directory child counted by the registry listing. -/
def childListed : DirChild → Bool
  | .withManifest (.parsed _) => true
  | _ => false

/-! Concrete fixtures used by counterexamples and witnesses. -/

/-- A fresh manifest as create_manifest writes it. -/
def mInit : Manifest := create_manifest_value "mig" "t0" "p" "u" "r"

/-- Environment holding a corrupt features.json, for the gate
agreement claims. -/
def envC4 : Env := { mkEnv (.valid mInit) with
  featuresFile := .corruptFile "Expecting value: line 1 column 1 (char 0)" }

/-- Environment with no artifacts at all, for the gate agreement
witness. -/
def envC4w : Env := mkEnv (.valid mInit)

/-- Scenario B environment: features.json is a single failing feature
with id f1. -/
def envB5 : Env := { mkEnv (.valid mInit) with
  featuresFile := .valid [{ id := "f1" }] }

/-- Environment whose features.json has seven failing features, to
exhibit the five-id truncation of the gate reason. -/
def env7f : Env := { mkEnv (.valid mInit) with
  featuresFile := .valid [{ id := "b1" }, { id := "b2" }, { id := "b3" },
    { id := "b4" }, { id := "b5" }, { id := "b6" }, { id := "b7" }] }

/-- Environment holding a differently corrupted features.json, for the
guardrail gate claim. -/
def envC5 : Env := { mkEnv (.valid mInit) with
  featuresFile := .corruptFile "Invalid control character at: line 1 column 5 (char 4)" }

/-- Environment with a failing understand gate (no docs) and no
manifest file at all, for the gate-first claim. -/
def envC10 : Env := { mkEnv .absent with docsNonempty := false }

/-- Environment holding the fresh manifest, used as the starting point
of the state machine scenarios. -/
def envInitSA : Env := mkEnv (.valid mInit)

/-- Manifest after start_phase ("migrate") on the fresh manifest: both
understand and migrate are in_progress. -/
def mBad : Manifest := { mInit with
  phases := aupdate mInit.phases "migrate" (fun e =>
    { e with status := some "in_progress", started_at := some "t1" }) }

/-- Environment after that start_phase call. -/
def envBadSA : Env := { envInitSA with manifestFile := .valid mBad }

/-- Environment for the regression scenario: features all pass so the
guardrail gate is open. -/
def envF3 : Env := { mkEnv (.valid mInit) with
  featuresFile := .valid [{ id := "f1", passes := true }] }

/-- Manifest after start_phase ("guardrail") at t1. -/
def mS1 : Manifest := { mInit with
  phases := aupdate mInit.phases "guardrail" (fun e =>
    { e with status := some "in_progress", started_at := some "t1" }) }

/-- Environment after start_phase ("guardrail"). -/
def envS1 : Env := { envF3 with manifestFile := .valid mS1 }

/-- Manifest after advance_phase ("guardrail") at t2: guardrail
completed, migrate in_progress, understand still in_progress. -/
def mS2 : Manifest := { mS1 with
  phases := aupdate (aupdate mS1.phases "guardrail" (fun e =>
    { e with status := some "completed", completed_at := some "t2" })) "migrate" (fun e =>
    { e with status := some "in_progress", started_at := some "t2" }) }

/-- Environment after advance_phase ("guardrail"). -/
def envS2 : Env := { envS1 with manifestFile := .valid mS2 }

/-- Manifest after advance_phase ("understand") at t3: the completed
guardrail phase has been pushed back to in_progress. -/
def mS3 : Manifest := { mS2 with
  phases := aupdate (aupdate mS2.phases "understand" (fun e =>
    { e with status := some "completed", completed_at := some "t3" })) "guardrail" (fun e =>
    { e with status := some "in_progress", started_at := some "t3" }) }

/-- Environment after advance_phase ("understand"). -/
def envS3 : Env := { envS2 with manifestFile := .valid mS3 }

/-- Manifest after a single advance_phase ("understand") at t1 from
the fresh manifest. -/
def mAdv1 : Manifest := { mInit with
  phases := aupdate (aupdate mInit.phases "understand" (fun e =>
    { e with status := some "completed", completed_at := some "t1" })) "guardrail" (fun e =>
    { e with status := some "in_progress", started_at := some "t1" }) }

/-- Environment after that advance. -/
def envAdv1r : Env := { envInitSA with manifestFile := .valid mAdv1 }

/-- Environment holding mAdv1 with passing features, so the guardrail
gate is open. -/
def envAdv2 : Env := { mkEnv (.valid mAdv1) with
  featuresFile := .valid [{ id := "f1", passes := true }] }

/-- Manifest after the further advance_phase ("guardrail") at t2. -/
def mAdv2 : Manifest := { mAdv1 with
  phases := aupdate (aupdate mAdv1.phases "guardrail" (fun e =>
    { e with status := some "completed", completed_at := some "t2" })) "migrate" (fun e =>
    { e with status := some "in_progress", started_at := some "t2" }) }

/-- Environment after that advance. -/
def envAdv2r : Env := { envAdv2 with manifestFile := .valid mAdv2 }

/-- Manifest whose phases dict only contains the guardrail key, for
the advance_phase mutation claim. -/
def mC1 : Manifest :=
  { phases := [("guardrail",
      { status := some "pending", started_at := some "", completed_at := some "" })] }

/-- Environment holding mC1 with docs and seams present. -/
def envC1 : Env := mkEnv (.valid mC1)

/-- Environment with an absent manifest and no tags, so the manifest
phase of create_checkpoint fails after tag creation. -/
def envC6 : Env := mkEnv .absent

/-- Manifest with one recorded checkpoint, for the progress claim. -/
def mW7 : Manifest := { mInit with checkpoints := ["loki-migrate/s1/pre"] }

/-- Environment holding mW7 and no artifacts at all. -/
def envW7 : Env := mkEnv (.valid mW7)

/-- Registry root with one well-shaped manifest and one valid-JSON
wrong-shaped manifest. -/
def rootC8 : List (String × DirChild) :=
  [("a", .withManifest (.parsed { id := some "mig_a" })),
   ("b", .withManifest .badShape)]

/-- Registry root mixing a well-shaped manifest with an invalid-JSON
one, a manifest-less directory and a plain file. -/
def rootC8w : List (String × DirChild) :=
  [("b", .withManifest (.invalidJson "Expecting value: line 1 column 1 (char 0)")),
   ("a", .withManifest (.parsed { id := some "mig_a" })),
   ("c", .noManifest),
   ("d", .notDir)]

/-- Environment reached by a create_checkpoint call whose metadata
write fails: the manifest lists the tag but no metadata file exists. -/
def envViol9 : Env :=
  (create_checkpoint (mkEnv (.valid mInit)) { metaWriteFails := true } "t1" "s1").1

/-- The manifest persisted inside envViol9. -/
def mViol9 : Manifest := { mInit with checkpoints := ["loki-migrate/s1/pre"] }

/-- Environment after one fully successful create_checkpoint call. -/
def envW9 : Env := (create_checkpoint (mkEnv (.valid mInit)) {} "t1" "s1").1

/-! Theorems. -/

/-- The possible values of succPhase: each phase except the last maps
to its successor in PHASE_ORDER. -/
lemma succPhase_cases (phase np : String) (h : succPhase phase = some np) :
    (phase = "understand" ∧ np = "guardrail") ∨
    (phase = "guardrail" ∧ np = "migrate") ∨
    (phase = "migrate" ∧ np = "verify") := by
  by_cases h1 : phase = "understand"
  · subst h1
    rw [show succPhase "understand" = some "guardrail" from by decide] at h
    exact Or.inl ⟨rfl, (Option.some_inj.mp h).symm⟩
  by_cases h2 : phase = "guardrail"
  · subst h2
    rw [show succPhase "guardrail" = some "migrate" from by decide] at h
    exact Or.inr (Or.inl ⟨rfl, (Option.some_inj.mp h).symm⟩)
  by_cases h3 : phase = "migrate"
  · subst h3
    rw [show succPhase "migrate" = some "verify" from by decide] at h
    exact Or.inr (Or.inr ⟨rfl, (Option.some_inj.mp h).symm⟩)
  by_cases h4 : phase = "verify"
  · subst h4
    rw [show succPhase "verify" = none from by decide] at h
    cases h
  · exfalso
    have e1 : (("understand" : String) == phase) = false :=
      beq_eq_false_iff_ne.mpr (fun hh => h1 hh.symm)
    have e2 : (("guardrail" : String) == phase) = false :=
      beq_eq_false_iff_ne.mpr (fun hh => h2 hh.symm)
    have e3 : (("migrate" : String) == phase) = false :=
      beq_eq_false_iff_ne.mpr (fun hh => h3 hh.symm)
    have e4 : (("verify" : String) == phase) = false :=
      beq_eq_false_iff_ne.mpr (fun hh => h4 hh.symm)
    rw [show succPhase phase = none from by
      simp [succPhase, PHASE_ORDER, List.findIdx?_cons, e1, e2, e3, e4]] at h
    cases h

/-- Every raising path of advance_phase leaves the environment, and in
particular the persisted manifest, untouched. -/
lemma advance_phase_error_env (env env' : Env) (now phase : String) (e : PyErr)
    (h : advance_phase env now phase = (env', .error e)) : env' = env := by
  simp only [advance_phase] at h
  split at h
  · cases h; rfl
  · rcases hg : advance_gate_check env phase with eg | ⟨⟩
    · rw [hg] at h; cases h; rfl
    · rw [hg] at h
      dsimp only at h
      rcases hl : load_manifest_unlocked env with el | manifest
      · rw [hl] at h; cases h; rfl
      · rw [hl] at h
        dsimp only at h
        rcases hs : advance_status_check manifest phase with es | ⟨⟩
        · rw [hs] at h; cases h; rfl
        · rw [hs] at h
          dsimp only at h
          rcases hn : succPhase phase with _ | np
          · rw [hn] at h; simp at h
          · rw [hn] at h
            dsimp only at h
            by_cases ha :
                akey (advance_mark_completed manifest now phase).phases np = true
            · rw [if_pos ha] at h; simp at h
            · rw [if_neg ha] at h; cases h; rfl

/-- Reduction of the gate enforcement step on a failing gate. -/
lemma advance_gate_check_fail (env : Env) (phase np reason : String)
    (hnp : succPhase phase = some np)
    (hg : check_phase_gate_unlocked env phase np = (false, reason)) :
    advance_gate_check env phase =
      .error (.runtimeError ("Phase gate failed: " ++ reason)) := by
  unfold advance_gate_check
  rw [hnp]
  dsimp only
  rw [hg]
  simp

/-- C10: advance_phase evaluates the phase gate before reading the
manifest: whenever the phase has a successor and the gate to it fails,
advance_phase raises the gate error with the gate reason, whatever the
manifest file holds (including no file at all), and the environment is
returned unchanged. -/
theorem C10_gate_checked_first (env : Env) (now phase np : String)
    (hnp : succPhase phase = some np)
    (hgate : (check_phase_gate_unlocked env phase np).1 = false) :
    advance_phase env now phase =
      (env, .error (.runtimeError
        ("Phase gate failed: " ++ (check_phase_gate_unlocked env phase np).2))) := by
  rcases hg : check_phase_gate_unlocked env phase np with ⟨allowed, reason⟩
  rw [hg] at hgate
  simp only at hgate
  subst hgate
  have hgc := advance_gate_check_fail env phase np reason hnp hg
  simp only [advance_phase, hgc]
  rcases succPhase_cases phase np hnp with ⟨rfl, rfl⟩ | ⟨rfl, rfl⟩ | ⟨rfl, rfl⟩ <;>
    simp +decide [PHASE_ORDER]

/-- C10 witness: with an absent manifest and an empty docs directory,
advancing understand raises the gate error untouched by the missing
manifest. -/
theorem C10_gate_checked_first_witness :
    advance_phase envC10 "t1" "understand" =
      (envC10, .error (.runtimeError
        ("Phase gate failed: " ++
          (check_phase_gate_unlocked envC10 "understand" "guardrail").2))) :=
  C10_gate_checked_first envC10 "t1" "understand" "guardrail" (by decide) (by decide)

/-- A successful status check of advance_phase forces the looked-up
entry to carry the in_progress status. -/
lemma advance_status_check_char (m : Manifest) (phase : String) (e : PhaseEntry)
    (hlook : alookup m.phases phase = some e)
    (h : advance_status_check m phase = .ok ()) :
    e.status.getD "pending" = "in_progress" := by
  have hk : akey m.phases phase = true := by
    unfold alookup at hlook
    unfold akey
    rcases hf : List.find? (fun p => p.1 == phase) m.phases with _ | pe
    · rw [hf] at hlook; cases hlook
    · rw [hf]; rfl
  have hps : phaseStatus m.phases phase = e.status.getD "pending" := by
    unfold phaseStatus
    rw [hlook]
  unfold advance_status_check at h
  rw [if_pos hk, hps] at h
  by_cases hip : e.status.getD "pending" = "in_progress"
  · exact hip
  · rw [if_pos hip] at h; cases h

/-- A successful gate enforcement step with a known successor forces
the gate verdict to be true. -/
lemma advance_gate_check_char (env : Env) (phase np : String)
    (hnp : succPhase phase = some np)
    (h : advance_gate_check env phase = .ok ()) :
    (check_phase_gate_unlocked env phase np).1 = true := by
  unfold advance_gate_check at h
  rw [hnp] at h
  dsimp only at h
  rcases hgp : check_phase_gate_unlocked env phase np with ⟨allowed, reason⟩
  rw [hgp] at h
  dsimp only at h
  cases allowed
  · simp at h
  · rfl

/-- Characterization of a successful advance_phase call on a manifest
whose phases dict has exactly the four ordered keys: the phase was
in_progress, its gate (when a successor exists) passed, and the new
environment holds the manifest with the frontier moved by one. -/
lemma advance_ok_shape (env env' : Env) (now phase : String) (r : PhaseResult)
    (m : Manifest) (e1 e2 e3 e4 : PhaseEntry)
    (hm : env.manifestFile = .valid m)
    (hph : m.phases = [("understand", e1), ("guardrail", e2),
                       ("migrate", e3), ("verify", e4)])
    (h : advance_phase env now phase = (env', .ok r)) :
    (phase = "understand" ∧ e1.status.getD "pending" = "in_progress" ∧
      (check_phase_gate_unlocked env "understand" "guardrail").1 = true ∧
      env' = { env with manifestFile := .valid { m with phases :=
        [("understand", { e1 with status := some "completed", completed_at := some now }),
         ("guardrail", { e2 with status := some "in_progress", started_at := some now }),
         ("migrate", e3), ("verify", e4)] } }) ∨
    (phase = "guardrail" ∧ e2.status.getD "pending" = "in_progress" ∧
      (check_phase_gate_unlocked env "guardrail" "migrate").1 = true ∧
      env' = { env with manifestFile := .valid { m with phases :=
        [("understand", e1),
         ("guardrail", { e2 with status := some "completed", completed_at := some now }),
         ("migrate", { e3 with status := some "in_progress", started_at := some now }),
         ("verify", e4)] } }) ∨
    (phase = "migrate" ∧ e3.status.getD "pending" = "in_progress" ∧
      (check_phase_gate_unlocked env "migrate" "verify").1 = true ∧
      env' = { env with manifestFile := .valid { m with phases :=
        [("understand", e1), ("guardrail", e2),
         ("migrate", { e3 with status := some "completed", completed_at := some now }),
         ("verify", { e4 with status := some "in_progress", started_at := some now })] } }) ∨
    (phase = "verify" ∧ e4.status.getD "pending" = "in_progress" ∧
      env' = { env with manifestFile := .valid { m with phases :=
        [("understand", e1), ("guardrail", e2), ("migrate", e3),
         ("verify", { e4 with status := some "completed", completed_at := some now })] } }) := by
  simp only [advance_phase] at h
  by_cases hmem : ¬ PHASE_ORDER.contains phase = true
  · rw [if_pos hmem] at h; simp at h
  rw [if_neg hmem] at h
  rcases hgc : advance_gate_check env phase with eg | ⟨⟩
  · rw [hgc] at h; simp at h
  rw [hgc] at h
  dsimp only at h
  have hl : load_manifest_unlocked env = .ok m := by
    simp [load_manifest_unlocked, hm]
  rw [hl] at h
  dsimp only at h
  rcases hsc : advance_status_check m phase with es | ⟨⟩
  · rw [hsc] at h; simp at h
  rw [hsc] at h
  dsimp only at h
  push_neg at hmem
  have hmem4 : phase = "understand" ∨ phase = "guardrail" ∨
      phase = "migrate" ∨ phase = "verify" := by
    have h2 : phase ∈ PHASE_ORDER := List.mem_of_elem_eq_true hmem
    simpa [PHASE_ORDER] using h2
  rcases hmem4 with rfl | rfl | rfl | rfl
  · refine Or.inl ⟨rfl, ?_, ?_, ?_⟩
    · exact advance_status_check_char m "understand" e1
        (by simp +decide [alookup, hph]) hsc
    · exact advance_gate_check_char env "understand" "guardrail" (by decide) hgc
    · rw [show succPhase "understand" = some "guardrail" from by decide] at h
      dsimp only at h
      rw [if_pos (by simp +decide [advance_mark_completed, akey, aupdate, hph])] at h
      have h1 := congrArg Prod.fst h
      dsimp only at h1
      rw [← h1]
      simp +decide [advance_mark_completed, akey, aupdate, hph]
  · refine Or.inr (Or.inl ⟨rfl, ?_, ?_, ?_⟩)
    · exact advance_status_check_char m "guardrail" e2
        (by simp +decide [alookup, hph]) hsc
    · exact advance_gate_check_char env "guardrail" "migrate" (by decide) hgc
    · rw [show succPhase "guardrail" = some "migrate" from by decide] at h
      dsimp only at h
      rw [if_pos (by simp +decide [advance_mark_completed, akey, aupdate, hph])] at h
      have h1 := congrArg Prod.fst h
      dsimp only at h1
      rw [← h1]
      simp +decide [advance_mark_completed, akey, aupdate, hph]
  · refine Or.inr (Or.inr (Or.inl ⟨rfl, ?_, ?_, ?_⟩))
    · exact advance_status_check_char m "migrate" e3
        (by simp +decide [alookup, hph]) hsc
    · exact advance_gate_check_char env "migrate" "verify" (by decide) hgc
    · rw [show succPhase "migrate" = some "verify" from by decide] at h
      dsimp only at h
      rw [if_pos (by simp +decide [advance_mark_completed, akey, aupdate, hph])] at h
      have h1 := congrArg Prod.fst h
      dsimp only at h1
      rw [← h1]
      simp +decide [advance_mark_completed, akey, aupdate, hph]
  · refine Or.inr (Or.inr (Or.inr ⟨rfl, ?_, ?_⟩))
    · exact advance_status_check_char m "verify" e4
        (by simp +decide [alookup, hph]) hsc
    · rw [show succPhase "verify" = none from by decide] at h
      dsimp only at h
      have h1 := congrArg Prod.fst h
      dsimp only at h1
      rw [← h1]
      simp +decide [advance_mark_completed, akey, aupdate, hph]

/-- A manifest whose phases dict has exactly the PHASE_ORDER keys has
the explicit four-entry shape. -/
lemma phases_shape (m : Manifest) (h : m.phases.map Prod.fst = PHASE_ORDER) :
    ∃ e1 e2 e3 e4, m.phases = [("understand", e1), ("guardrail", e2),
      ("migrate", e3), ("verify", e4)] := by
  rcases hp : m.phases with _ | ⟨⟨k1, e1⟩, _ | ⟨⟨k2, e2⟩, _ | ⟨⟨k3, e3⟩,
    _ | ⟨⟨k4, e4⟩, _ | ⟨x, l⟩⟩⟩⟩⟩ <;> rw [hp] at h <;> simp [PHASE_ORDER] at h
  obtain ⟨h1, h2, h3, h4⟩ := h
  subst h1; subst h2; subst h3; subst h4
  exact ⟨e1, e2, e3, e4, rfl⟩

/-- A phase whose status reads in_progress from a four-key manifest is
one of the four phases. -/
lemma phase_of_in_progress (m : Manifest) (phase : String)
    (e1 e2 e3 e4 : PhaseEntry)
    (hph : m.phases = [("understand", e1), ("guardrail", e2),
                       ("migrate", e3), ("verify", e4)])
    (hip : phaseStatus m.phases phase = "in_progress") :
    phase = "understand" ∨ phase = "guardrail" ∨
    phase = "migrate" ∨ phase = "verify" := by
  by_contra hc
  push_neg at hc
  obtain ⟨n1, n2, n3, n4⟩ := hc
  have n1' : "understand" ≠ phase := fun hh => n1 hh.symm
  have n2' : "guardrail" ≠ phase := fun hh => n2 hh.symm
  have n3' : "migrate" ≠ phase := fun hh => n3 hh.symm
  have n4' : "verify" ≠ phase := fun hh => n4 hh.symm
  rw [phaseStatus, hph] at hip
  simp [alookup, n1', n2', n3', n4'] at hip

/-- An entry whose defaulted status reads in_progress holds the literal
some in_progress. -/
lemma status_some_of_getD (e : PhaseEntry)
    (hip : e.status.getD "pending" = "in_progress") :
    e.status = some "in_progress" := by
  rcases h0 : e.status with _ | s
  · rw [h0] at hip; simp at hip
  · rw [h0] at hip; simp at hip; rw [hip]

/-- Construction direction: on a four-key manifest with the phase
in_progress and its gate passing (or no successor), advance_phase
succeeds and rewrites the manifest file to a different value. -/
lemma advance_ok_construct (env : Env) (now phase : String)
    (m : Manifest) (e1 e2 e3 e4 : PhaseEntry)
    (hm : env.manifestFile = .valid m)
    (hph : m.phases = [("understand", e1), ("guardrail", e2),
                       ("migrate", e3), ("verify", e4)])
    (hip : phaseStatus m.phases phase = "in_progress")
    (hgate : succPhase phase = none ∨ ∃ np, succPhase phase = some np ∧
      (check_phase_gate_unlocked env phase np).1 = true) :
    (advance_phase env now phase).1.manifestFile ≠ env.manifestFile := by
  have hl : load_manifest_unlocked env = .ok m := by
    simp [load_manifest_unlocked, hm]
  rcases phase_of_in_progress m phase e1 e2 e3 e4 hph hip with rfl | rfl | rfl | rfl
  · have hip1 : e1.status.getD "pending" = "in_progress" := by
      rw [phaseStatus, hph] at hip
      simpa [alookup] using hip
    have hgc : advance_gate_check env "understand" = .ok () := by
      rcases hgate with hnone | ⟨np, hnp, hverdict⟩
      · rw [show succPhase "understand" = some "guardrail" from by decide] at hnone
        cases hnone
      · rw [show succPhase "understand" = some "guardrail" from by decide] at hnp
        cases hnp
        unfold advance_gate_check
        rw [show succPhase "understand" = some "guardrail" from by decide]
        dsimp only
        rcases hgp : check_phase_gate_unlocked env "understand" "guardrail"
          with ⟨allowed, reason⟩
        rw [hgp] at hverdict
        dsimp only at hverdict
        subst hverdict
        rfl
    have hsc : advance_status_check m "understand" = .ok () := by
      unfold advance_status_check
      rw [if_pos (by simp +decide [akey, hph])]
      rw [show phaseStatus m.phases "understand" = e1.status.getD "pending" from by
        rw [phaseStatus, hph]; simp +decide [alookup]]
      simp [hip1]
    simp only [advance_phase]
    rw [if_neg (by decide), hgc]
    dsimp only
    rw [hl]
    dsimp only
    rw [hsc]
    dsimp only
    rw [show succPhase "understand" = some "guardrail" from by decide]
    dsimp only
    rw [if_pos (by simp +decide [advance_mark_completed, akey, aupdate, hph])]
    dsimp only
    rw [hm]
    intro heq
    injection heq with h3
    have hcmp := congrArg (fun mm => phaseStatus mm.phases "understand") h3
    dsimp only at hcmp
    rw [show phaseStatus m.phases "understand" = e1.status.getD "pending" from by
      rw [phaseStatus, hph]; simp +decide [alookup], hip1] at hcmp
    rw [show (advance_mark_completed m now "understand") =
      { m with phases := aupdate m.phases "understand" (fun e =>
        { e with status := some "completed", completed_at := some now }) } from by
      rw [advance_mark_completed, if_pos (by simp +decide [akey, hph])]] at hcmp
    rw [hph] at hcmp
    simp +decide [phaseStatus, alookup, aupdate] at hcmp
  · have hip2 : e2.status.getD "pending" = "in_progress" := by
      rw [phaseStatus, hph] at hip
      simpa [alookup] using hip
    have hgc : advance_gate_check env "guardrail" = .ok () := by
      rcases hgate with hnone | ⟨np, hnp, hverdict⟩
      · rw [show succPhase "guardrail" = some "migrate" from by decide] at hnone
        cases hnone
      · rw [show succPhase "guardrail" = some "migrate" from by decide] at hnp
        cases hnp
        unfold advance_gate_check
        rw [show succPhase "guardrail" = some "migrate" from by decide]
        dsimp only
        rcases hgp : check_phase_gate_unlocked env "guardrail" "migrate"
          with ⟨allowed, reason⟩
        rw [hgp] at hverdict
        dsimp only at hverdict
        subst hverdict
        rfl
    have hsc : advance_status_check m "guardrail" = .ok () := by
      unfold advance_status_check
      rw [if_pos (by simp +decide [akey, hph])]
      rw [show phaseStatus m.phases "guardrail" = e2.status.getD "pending" from by
        rw [phaseStatus, hph]; simp +decide [alookup]]
      simp [hip2]
    simp only [advance_phase]
    rw [if_neg (by decide), hgc]
    dsimp only
    rw [hl]
    dsimp only
    rw [hsc]
    dsimp only
    rw [show succPhase "guardrail" = some "migrate" from by decide]
    dsimp only
    rw [if_pos (by simp +decide [advance_mark_completed, akey, aupdate, hph])]
    dsimp only
    rw [hm]
    intro heq
    injection heq with h3
    have hcmp := congrArg (fun mm => phaseStatus mm.phases "guardrail") h3
    dsimp only at hcmp
    rw [show phaseStatus m.phases "guardrail" = e2.status.getD "pending" from by
      rw [phaseStatus, hph]; simp +decide [alookup], hip2] at hcmp
    rw [show (advance_mark_completed m now "guardrail") =
      { m with phases := aupdate m.phases "guardrail" (fun e =>
        { e with status := some "completed", completed_at := some now }) } from by
      rw [advance_mark_completed, if_pos (by simp +decide [akey, hph])]] at hcmp
    rw [hph] at hcmp
    simp +decide [phaseStatus, alookup, aupdate] at hcmp
  · have hip3 : e3.status.getD "pending" = "in_progress" := by
      rw [phaseStatus, hph] at hip
      simpa [alookup] using hip
    have hgc : advance_gate_check env "migrate" = .ok () := by
      rcases hgate with hnone | ⟨np, hnp, hverdict⟩
      · rw [show succPhase "migrate" = some "verify" from by decide] at hnone
        cases hnone
      · rw [show succPhase "migrate" = some "verify" from by decide] at hnp
        cases hnp
        unfold advance_gate_check
        rw [show succPhase "migrate" = some "verify" from by decide]
        dsimp only
        rcases hgp : check_phase_gate_unlocked env "migrate" "verify"
          with ⟨allowed, reason⟩
        rw [hgp] at hverdict
        dsimp only at hverdict
        subst hverdict
        rfl
    have hsc : advance_status_check m "migrate" = .ok () := by
      unfold advance_status_check
      rw [if_pos (by simp +decide [akey, hph])]
      rw [show phaseStatus m.phases "migrate" = e3.status.getD "pending" from by
        rw [phaseStatus, hph]; simp +decide [alookup]]
      simp [hip3]
    simp only [advance_phase]
    rw [if_neg (by decide), hgc]
    dsimp only
    rw [hl]
    dsimp only
    rw [hsc]
    dsimp only
    rw [show succPhase "migrate" = some "verify" from by decide]
    dsimp only
    rw [if_pos (by simp +decide [advance_mark_completed, akey, aupdate, hph])]
    dsimp only
    rw [hm]
    intro heq
    injection heq with h3
    have hcmp := congrArg (fun mm => phaseStatus mm.phases "migrate") h3
    dsimp only at hcmp
    rw [show phaseStatus m.phases "migrate" = e3.status.getD "pending" from by
      rw [phaseStatus, hph]; simp +decide [alookup], hip3] at hcmp
    rw [show (advance_mark_completed m now "migrate") =
      { m with phases := aupdate m.phases "migrate" (fun e =>
        { e with status := some "completed", completed_at := some now }) } from by
      rw [advance_mark_completed, if_pos (by simp +decide [akey, hph])]] at hcmp
    rw [hph] at hcmp
    simp +decide [phaseStatus, alookup, aupdate] at hcmp
  · have hip4 : e4.status.getD "pending" = "in_progress" := by
      rw [phaseStatus, hph] at hip
      simpa [alookup] using hip
    have hgc : advance_gate_check env "verify" = .ok () := by
      unfold advance_gate_check
      rw [show succPhase "verify" = none from by decide]
    have hsc : advance_status_check m "verify" = .ok () := by
      unfold advance_status_check
      rw [if_pos (by simp +decide [akey, hph])]
      rw [show phaseStatus m.phases "verify" = e4.status.getD "pending" from by
        rw [phaseStatus, hph]; simp +decide [alookup]]
      simp [hip4]
    simp only [advance_phase]
    rw [if_neg (by decide), hgc]
    dsimp only
    rw [hl]
    dsimp only
    rw [hsc]
    dsimp only
    rw [show succPhase "verify" = none from by decide]
    dsimp only
    rw [hm]
    intro heq
    injection heq with h3
    have hcmp := congrArg (fun mm => phaseStatus mm.phases "verify") h3
    dsimp only at hcmp
    rw [show phaseStatus m.phases "verify" = e4.status.getD "pending" from by
      rw [phaseStatus, hph]; simp +decide [alookup], hip4] at hcmp
    rw [show (advance_mark_completed m now "verify") =
      { m with phases := aupdate m.phases "verify" (fun e =>
        { e with status := some "completed", completed_at := some now }) } from by
      rw [advance_mark_completed, if_pos (by simp +decide [akey, hph])]] at hcmp
    rw [hph] at hcmp
    simp +decide [phaseStatus, alookup, aupdate] at hcmp

/-- C1 counterexample: on a manifest whose phases dict lacks the
understand key (status effectively pending), advance_phase
("understand") still succeeds and mutates the persisted manifest,
because the status check is skipped for keys the dict does not
contain. -/
theorem C1_counterexample :
    (advance_phase envC1 "t1" "understand").1.manifestFile ≠ envC1.manifestFile ∧
    phaseStatus mC1.phases "understand" ≠ "in_progress" ∧
    (advance_phase envC1 "t1" "understand").2 =
      .ok { phase := "understand", status := "completed", completed_at := "t1" } := by
  decide

/-- C1 (amended): every raising path of advance_phase leaves the
environment and hence the persisted manifest byte-for-byte unchanged;
and on any manifest whose phases dict contains every phase of
PHASE_ORDER, advance_phase(p) mutates the persisted manifest iff the
status of p is in_progress and p has no successor or the gate to its
successor passes. -/
theorem C1_advance_mutation :
    (∀ env env' now phase e,
      advance_phase env now phase = (env', .error e) → env' = env)
    ∧ (∀ env now phase m, env.manifestFile = .valid m →
        m.phases.map Prod.fst = PHASE_ORDER →
        ((advance_phase env now phase).1.manifestFile ≠ env.manifestFile ↔
          (phaseStatus m.phases phase = "in_progress" ∧
            (succPhase phase = none ∨ ∃ np, succPhase phase = some np ∧
              (check_phase_gate_unlocked env phase np).1 = true)))) := by
  refine ⟨fun env env' now phase e h =>
    advance_phase_error_env env env' now phase e h, ?_⟩
  intro env now phase m hm hkeys
  obtain ⟨e1, e2, e3, e4, hph⟩ := phases_shape m hkeys
  constructor
  · intro hmut
    cases hres : (advance_phase env now phase).2 with
    | error e =>
      exfalso
      have hpair : advance_phase env now phase =
          ((advance_phase env now phase).1, Except.error e) := by
        conv_lhs => rw [show advance_phase env now phase =
          ((advance_phase env now phase).1, (advance_phase env now phase).2)
          from rfl]
        rw [hres]
      have henv := advance_phase_error_env env _ now phase e hpair
      apply hmut
      rw [henv]
    | ok r =>
      have hpair : advance_phase env now phase =
          ((advance_phase env now phase).1, Except.ok r) := by
        conv_lhs => rw [show advance_phase env now phase =
          ((advance_phase env now phase).1, (advance_phase env now phase).2)
          from rfl]
        rw [hres]
      rcases advance_ok_shape env _ now phase r m e1 e2 e3 e4 hm hph hpair with
        ⟨rfl, hip, hgt, _⟩ | ⟨rfl, hip, hgt, _⟩ | ⟨rfl, hip, hgt, _⟩ | ⟨rfl, hip, _⟩
      · refine ⟨?_, Or.inr ⟨"guardrail", by decide, hgt⟩⟩
        rw [phaseStatus, hph]
        simp +decide [alookup]
        exact hip
      · refine ⟨?_, Or.inr ⟨"migrate", by decide, hgt⟩⟩
        rw [phaseStatus, hph]
        simp +decide [alookup]
        exact hip
      · refine ⟨?_, Or.inr ⟨"verify", by decide, hgt⟩⟩
        rw [phaseStatus, hph]
        simp +decide [alookup]
        exact hip
      · refine ⟨?_, Or.inl (by decide)⟩
        rw [phaseStatus, hph]
        simp +decide [alookup]
        exact hip
  · rintro ⟨hip, hg⟩
    exact advance_ok_construct env now phase m e1 e2 e3 e4 hm hph hip hg

/-- C1 witness: the amended equivalence instantiated on a fresh
manifest where understand is in_progress and its gate passes. -/
theorem C1_advance_mutation_witness :
    (advance_phase (mkEnv (.valid mInit)) "t1" "understand").1.manifestFile ≠
      (mkEnv (.valid mInit)).manifestFile ↔
    (phaseStatus mInit.phases "understand" = "in_progress" ∧
      (succPhase "understand" = none ∨ ∃ np, succPhase "understand" = some np ∧
        (check_phase_gate_unlocked (mkEnv (.valid mInit)) "understand" np).1 = true)) :=
  C1_advance_mutation.2 (mkEnv (.valid mInit)) "t1" "understand" mInit rfl (by decide)

/-- Reduction of the standalone gate checker on the guardrail-migrate
pair to its features branch. -/
lemma check_phase_gate_guardrail (env : Env) :
    check_phase_gate env "guardrail" "migrate" =
      (match env.featuresFile with
       | .absent => .ok (false, "Phase gate failed: features.json not found")
       | .corruptFile exc => .error (.corruptError exc)
       | .valid features =>
         if features.isEmpty then .ok (false, "No features defined")
         else if (features.filter (fun f => !f.passes)).isEmpty then
           .ok (true, "Gate passed: all characterization tests pass")
         else
           .ok (false, "Phase gate failed: " ++
             toString (features.filter (fun f => !f.passes)).length ++
             " characterization tests not passing (" ++
             String.intercalate ", "
               (((features.filter (fun f => !f.passes)).take 5).map Feature.id) ++
             ")")) := by
  unfold check_phase_gate load_features
  cases env.featuresFile <;> simp +decide [PHASE_ORDER, adjacentPhases]

/-- C4 counterexample: with a present-but-invalid features.json the
two gate checkers disagree on (guardrail, migrate): the internal
variant returns a false verdict while the standalone variant raises
the parse error, so they neither return the same result nor both
raise. -/
theorem C4_counterexample :
    check_phase_gate_unlocked envC4 "guardrail" "migrate" =
      (false, "Phase gate failed: features.json is invalid: Expecting value: line 1 column 1 (char 0)") ∧
    check_phase_gate envC4 "guardrail" "migrate" =
      .error (.corruptError "Expecting value: line 1 column 1 (char 0)") ∧
    (check_phase_gate envC4 "guardrail" "migrate").isOk = false := by
  decide

/-- C4 (amended): whenever neither features.json nor
migration-plan.json is present-but-invalid, the standalone
check_phase_gate and the internal _check_phase_gate_unlocked produce
the identical (allowed, reason) verdict for every phase pair; when one
of those artifacts is present but invalid, the internal variant
returns a false verdict while the standalone variant raises. -/
theorem C4_gate_agreement (env : Env) (from_phase to_phase : String)
    (hf : notCorrupt env.featuresFile = true)
    (hp : notCorrupt env.planFile = true) :
    check_phase_gate env from_phase to_phase =
      .ok (check_phase_gate_unlocked env from_phase to_phase) := by
  unfold check_phase_gate check_phase_gate_unlocked load_features load_plan
  cases hfe : env.featuresFile <;> cases hpe : env.planFile <;>
    simp [notCorrupt, hfe, hpe] at hf hp ⊢
  all_goals split_ifs <;> rfl

/-- C4 witness: on an environment with no artifacts at all, the two
checkers agree on (guardrail, migrate). -/
theorem C4_gate_agreement_witness :
    check_phase_gate envC4w "guardrail" "migrate" =
      .ok (check_phase_gate_unlocked envC4w "guardrail" "migrate") :=
  C4_gate_agreement envC4w "guardrail" "migrate" (by decide) (by decide)

/-- C5 counterexample: for a features.json that is present but does
not parse, check_phase_gate ("guardrail", "migrate") raises the parse
error instead of returning a false verdict with a reason. -/
theorem C5_counterexample :
    check_phase_gate envC5 "guardrail" "migrate" =
      .error (.corruptError "Invalid control character at: line 1 column 5 (char 4)") ∧
    (check_phase_gate envC5 "guardrail" "migrate").isOk = false := by
  decide

/-- C5 (amended): check_phase_gate ("guardrail", "migrate") returns a
true verdict iff the features document parses, is non-empty and every
passes field is true; a failing verdict carries a reason naming at
most the first five offending feature ids (shown on a seven-failure
input), and on Scenario B the reason contains f1; a
present-but-unparseable document instead raises. -/
theorem C5_guardrail_gate :
    (∀ env : Env,
      (∃ r, check_phase_gate env "guardrail" "migrate" = .ok (true, r)) ↔
      (∃ fs, env.featuresFile = .valid fs ∧ fs ≠ [] ∧
        fs.all Feature.passes = true))
    ∧ check_phase_gate envB5 "guardrail" "migrate" =
        .ok (false, "Phase gate failed: 1 characterization tests not passing (f1)")
    ∧ strContainsSub "Phase gate failed: 1 characterization tests not passing (f1)" "f1" = true
    ∧ check_phase_gate env7f "guardrail" "migrate" =
        .ok (false, "Phase gate failed: 7 characterization tests not passing (b1, b2, b3, b4, b5)") := by
  refine ⟨?_, by decide, by decide, by decide⟩
  intro env
  rw [check_phase_gate_guardrail]
  cases hfe : env.featuresFile with
  | absent => simp
  | corruptFile exc => simp
  | valid fs =>
    by_cases hemp : fs.isEmpty
    · rw [List.isEmpty_iff] at hemp
      subst hemp
      simp
    · by_cases hfail : (fs.filter (fun f => !f.passes)).isEmpty
      · simp only [hemp, if_false, hfail, if_true, Bool.false_eq_true]
        constructor
        · intro _
          refine ⟨fs, rfl, fun hnil => by simp [hnil] at hemp, ?_⟩
          rw [List.isEmpty_iff, List.filter_eq_nil_iff] at hfail
          rw [List.all_eq_true]
          intro f hfm
          simpa using hfail f hfm
        · intro _
          exact ⟨_, rfl⟩
      · simp only [hemp, if_false, hfail, Bool.false_eq_true]
        constructor
        · rintro ⟨r, h⟩
          simp at h
        · rintro ⟨fs', hv, hne, hall⟩
          cases hv
          exact absurd (by
            rw [List.isEmpty_iff, List.filter_eq_nil_iff]
            intro f hfm
            rw [List.all_eq_true] at hall
            simp [hall f hfm]) hfail

/-- Evaluation of phaseStatus over an explicit four-entry phases
list. -/
lemma phaseStatus_explicit (e1 e2 e3 e4 : PhaseEntry) (q : String) :
    phaseStatus [("understand", e1), ("guardrail", e2),
                 ("migrate", e3), ("verify", e4)] q =
      if q = "understand" then e1.status.getD "pending"
      else if q = "guardrail" then e2.status.getD "pending"
      else if q = "migrate" then e3.status.getD "pending"
      else if q = "verify" then e4.status.getD "pending"
      else "pending" := by
  by_cases h1 : q = "understand"
  · subst h1; simp [phaseStatus, alookup]
  have n1 : (("understand" : String) == q) = false :=
    beq_eq_false_iff_ne.mpr (fun hh => h1 hh.symm)
  by_cases h2 : q = "guardrail"
  · subst h2; simp [phaseStatus, alookup]
  have n2 : (("guardrail" : String) == q) = false :=
    beq_eq_false_iff_ne.mpr (fun hh => h2 hh.symm)
  by_cases h3 : q = "migrate"
  · subst h3; simp [phaseStatus, alookup]
  have n3 : (("migrate" : String) == q) = false :=
    beq_eq_false_iff_ne.mpr (fun hh => h3 hh.symm)
  by_cases h4 : q = "verify"
  · subst h4; simp [phaseStatus, alookup]
  have n4 : (("verify" : String) == q) = false :=
    beq_eq_false_iff_ne.mpr (fun hh => h4 hh.symm)
  simp [phaseStatus, alookup, n1, n2, n3, n4, h1, h2, h3, h4]

/-- The fresh manifest satisfies the frontier invariant at k = 0. -/
lemma inv_init (mid ts cp st tg : String) :
    Inv (create_manifest_value mid ts cp st tg) :=
  ⟨_, _, _, _, 0, rfl, rfl⟩

/-- A successful advance_phase call preserves the frontier
invariant. -/
lemma advance_preserves_inv (env env' : Env) (now phase : String)
    (r : PhaseResult) (m m' : Manifest)
    (hInv : Inv m) (hm : env.manifestFile = .valid m)
    (h : advance_phase env now phase = (env', .ok r))
    (hm' : env'.manifestFile = .valid m') : Inv m' := by
  obtain ⟨e1, e2, e3, e4, k, hph, hst⟩ := hInv
  rcases advance_ok_shape env env' now phase r m e1 e2 e3 e4 hm hph h with
    ⟨_, hip, _, henv⟩ | ⟨_, hip, _, henv⟩ | ⟨_, hip, _, henv⟩ | ⟨_, hip, henv⟩ <;>
    rw [henv] at hm' <;> dsimp only at hm' <;> injection hm' with hm2 <;> subst hm2
  · have hs := status_some_of_getD e1 hip
    rcases k with _ | _ | _ | _ | n <;> simp [frontierStatuses] at hst
    · obtain ⟨h1, h2, h3, h4⟩ := hst
      exact ⟨_, _, _, _, 1, rfl, by simp [frontierStatuses, h2, h3, h4]⟩
    all_goals rw [hst.1] at hs; simp at hs
  · have hs := status_some_of_getD e2 hip
    rcases k with _ | _ | _ | _ | n <;> simp [frontierStatuses] at hst
    · rw [hst.2.1] at hs; simp at hs
    · obtain ⟨h1, h2, h3, h4⟩ := hst
      exact ⟨_, _, _, _, 2, rfl, by simp [frontierStatuses, h1, h3, h4]⟩
    all_goals rw [hst.2.1] at hs; simp at hs
  · have hs := status_some_of_getD e3 hip
    rcases k with _ | _ | _ | _ | n <;> simp [frontierStatuses] at hst
    · rw [hst.2.2.1] at hs; simp at hs
    · rw [hst.2.2.1] at hs; simp at hs
    · obtain ⟨h1, h2, h3, h4⟩ := hst
      exact ⟨_, _, _, _, 3, rfl, by simp [frontierStatuses, h1, h2, h4]⟩
    · rw [hst.2.2.1] at hs; simp at hs
    · rw [hst.2.2.1] at hs; simp at hs
  · have hs := status_some_of_getD e4 hip
    rcases k with _ | _ | _ | _ | n <;> simp [frontierStatuses] at hst
    · rw [hst.2.2.2] at hs; simp at hs
    · rw [hst.2.2.2] at hs; simp at hs
    · rw [hst.2.2.2] at hs; simp at hs
    · obtain ⟨h1, h2, h3, h4⟩ := hst
      exact ⟨_, _, _, _, 4, rfl, by simp [frontierStatuses, h1, h2, h3]⟩
    · rw [hst.2.2.2] at hs; simp at hs

/-- Every manifest reachable by advance_phase alone satisfies the
frontier invariant. -/
lemma reachAdv_inv (m : Manifest) (h : ReachAdv m) : Inv m := by
  induction h with
  | init mid ts cp st tg => exact inv_init mid ts cp st tg
  | advance m env env' now phase r m' hr hm ha hm' ih =>
    exact advance_preserves_inv env env' now phase r m m' ih hm ha hm'

/-- The frontier invariant implies the claimed single-in-progress
property. -/
lemma inv_single (m : Manifest) (hInv : Inv m) :
    singleInProgress m = true := by
  obtain ⟨e1, e2, e3, e4, k, hph, hst⟩ := hInv
  rcases k with _ | _ | _ | _ | n <;> simp [frontierStatuses] at hst <;>
    obtain ⟨h1, h2, h3, h4⟩ := hst <;>
    simp +decide [singleInProgress, firstNonCompleted, PHASE_ORDER,
      phaseStatus, alookup, hph, h1, h2, h3, h4]

/-- A successful advance_phase call never pushes a completed phase
back, on any manifest satisfying the frontier invariant. -/
lemma advance_preserves_completed (env env' : Env) (now phase q : String)
    (r : PhaseResult) (m m' : Manifest)
    (hInv : Inv m) (hm : env.manifestFile = .valid m)
    (h : advance_phase env now phase = (env', .ok r))
    (hm' : env'.manifestFile = .valid m')
    (hq : phaseStatus m.phases q = "completed") :
    phaseStatus m'.phases q = "completed" := by
  obtain ⟨e1, e2, e3, e4, k, hph, hst⟩ := hInv
  rw [hph, phaseStatus_explicit] at hq
  rcases advance_ok_shape env env' now phase r m e1 e2 e3 e4 hm hph h with
    ⟨_, hip, _, henv⟩ | ⟨_, hip, _, henv⟩ | ⟨_, hip, _, henv⟩ | ⟨_, hip, henv⟩ <;>
    rw [henv] at hm' <;> dsimp only at hm' <;> injection hm' with hm2 <;>
    subst hm2 <;> dsimp only <;> rw [phaseStatus_explicit] <;>
    have hs := status_some_of_getD _ hip <;>
    rcases k with _ | _ | _ | _ | n <;> simp [frontierStatuses] at hst
  -- phase = understand: only k = 0 is consistent; no phase is completed
  case _ => -- k = 0
    obtain ⟨h1, h2, h3, h4⟩ := hst
    split_ifs at hq <;> simp_all
  case _ => rw [hst.1] at hs; simp at hs
  case _ => rw [hst.1] at hs; simp at hs
  case _ => rw [hst.1] at hs; simp at hs
  case _ => rw [hst.1] at hs; simp at hs
  -- phase = guardrail: only k = 1; understand is completed and stays
  case _ => rw [hst.2.1] at hs; simp at hs
  case _ =>
    obtain ⟨h1, h2, h3, h4⟩ := hst
    split_ifs at hq <;> simp_all
  case _ => rw [hst.2.1] at hs; simp at hs
  case _ => rw [hst.2.1] at hs; simp at hs
  case _ => rw [hst.2.1] at hs; simp at hs
  -- phase = migrate: only k = 2; understand and guardrail stay
  case _ => rw [hst.2.2.1] at hs; simp at hs
  case _ => rw [hst.2.2.1] at hs; simp at hs
  case _ =>
    obtain ⟨h1, h2, h3, h4⟩ := hst
    split_ifs at hq <;> simp_all
  case _ => rw [hst.2.2.1] at hs; simp at hs
  case _ => rw [hst.2.2.1] at hs; simp at hs
  -- phase = verify: only k = 3; the first three stay
  case _ => rw [hst.2.2.2] at hs; simp at hs
  case _ => rw [hst.2.2.2] at hs; simp at hs
  case _ => rw [hst.2.2.2] at hs; simp at hs
  case _ =>
    obtain ⟨h1, h2, h3, h4⟩ := hst
    split_ifs at hq <;> simp_all
  case _ => rw [hst.2.2.2] at hs; simp at hs

/-- Reachability transports along advance sequences. -/
lemma advSeq_reach (m m' : Manifest) (hr : ReachAdv m) (hs : AdvSeq m m') :
    ReachAdv m' := by
  induction hs with
  | refl => exact hr
  | step m1 env env' now phase r m2 hseq hm ha hm2 ih =>
    exact ReachAdv.advance m1 env env' now phase r m2 ih hm ha hm2

/-- C2 counterexample: start_phase does not check the other phases, so
calling start_phase ("migrate") right after create_manifest yields a
reachable manifest with two in_progress phases, one of which is not
the first non-completed phase. -/
theorem C2_counterexample :
    ReachSA mBad ∧ singleInProgress mBad = false := by
  constructor
  · exact ReachSA.start mInit envInitSA envBadSA "t1" "migrate" mBad
      (ReachSA.init "mig" "t0" "p" "u" "r") rfl (by decide) rfl
  · decide

/-- C2 (amended): in every manifest state reachable from
create_manifest by successful advance_phase calls alone, every
in_progress phase is the first non-completed phase of PHASE_ORDER, so
at most one phase is in_progress; start_phase on a later pending phase
violates this. -/
theorem C2_single_in_progress (m : Manifest) (h : ReachAdv m) :
    singleInProgress m = true :=
  inv_single m (reachAdv_inv m h)

/-- C2 witness: the property instantiated on the freshly created
manifest. -/
theorem C2_single_in_progress_witness :
    singleInProgress (create_manifest_value "mig" "t0" "p" "u" "r") = true :=
  C2_single_in_progress _ (ReachAdv.init "mig" "t0" "p" "u" "r")

/-- C3 counterexample: after start_phase ("guardrail") and
advance_phase ("guardrail"), the manifest mS2 is reachable with
guardrail completed while understand is still in_progress; the next
advance_phase ("understand") succeeds and sets the completed guardrail
phase back to in_progress. -/
theorem C3_counterexample :
    ReachSA mS2 ∧ phaseStatus mS2.phases "guardrail" = "completed" ∧
    advance_phase envS2 "t3" "understand" =
      (envS3,
       .ok { phase := "understand", status := "completed", completed_at := "t3" }) ∧
    envS3.manifestFile = .valid mS3 ∧
    phaseStatus mS3.phases "guardrail" = "in_progress" := by
  refine ⟨?_, by decide, by decide, rfl, by decide⟩
  exact ReachSA.advance mS1 envS1 envS2 "t2" "guardrail"
    { phase := "guardrail", status := "completed", completed_at := "t2" } mS2
    (ReachSA.start mInit envF3 envS1 "t1" "guardrail" mS1
      (ReachSA.init "mig" "t0" "p" "u" "r") rfl (by decide) rfl)
    rfl (by decide) rfl

/-- C3 (amended): under sequences of advance_phase calls alone, phase
statuses are monotonic: once a phase reads completed in a reachable
manifest, it still reads completed in every manifest reachable from it
by further advance_phase calls. -/
theorem C3_completed_monotonic (m m' : Manifest) (q : String)
    (hr : ReachAdv m) (hs : AdvSeq m m')
    (hq : phaseStatus m.phases q = "completed") :
    phaseStatus m'.phases q = "completed" := by
  induction hs with
  | refl => exact hq
  | step m1 env env' now phase r m2 hseq hm ha hm2 ih =>
    exact advance_preserves_completed env env' now phase q r m1 m2
      (reachAdv_inv m1 (advSeq_reach m m1 hr hseq)) hm ha hm2 ih

/-- C3 witness: understand stays completed across a further
advance_phase ("guardrail") call. -/
theorem C3_completed_monotonic_witness :
    phaseStatus mAdv2.phases "understand" = "completed" :=
  C3_completed_monotonic mAdv1 mAdv2 "understand"
    (ReachAdv.advance mInit envInitSA envAdv1r "t1" "understand"
      { phase := "understand", status := "completed", completed_at := "t1" }
      mAdv1 (ReachAdv.init "mig" "t0" "p" "u" "r") rfl (by decide) rfl)
    (AdvSeq.step mAdv1 mAdv1 envAdv2 envAdv2r "t2" "guardrail"
      { phase := "guardrail", status := "completed", completed_at := "t2" }
      mAdv2 (AdvSeq.refl mAdv1) rfl (by decide) rfl)
    (by decide)

/-- C6 counterexample: when the compensating git tag -d itself fails,
create_checkpoint propagates the manifest error while the created tag
still exists, so the deletion is only best-effort. -/
theorem C6_counterexample :
    (create_checkpoint envC6 { tagDeleteFails := true } "t1" "s1").2 =
      .error .fileNotFoundError ∧
    (create_checkpoint envC6 { tagDeleteFails := true } "t1" "s1").1.tags.contains
      "loki-migrate/s1/pre" = true := by
  decide

/-- C6 (amended): when the tag creation succeeds but the manifest
load-or-save fails, create_checkpoint raises, the persisted manifest
file is unchanged, and when the compensating tag deletion succeeds the
created tag is gone; the deletion is best-effort only. -/
theorem C6_checkpoint_compensation (env : Env) (fm : FailureModel)
    (now step_id : String)
    (hv : valid_step_id step_id = true)
    (hcf : fm.tagCreateFails = false)
    (hfresh : env.tags.contains (mkTag step_id) = false)
    (hfail : (!isValidFile env.manifestFile || fm.manifestSaveFails) = true) :
    (∃ e, (create_checkpoint env fm now step_id).2 = .error e) ∧
    (create_checkpoint env fm now step_id).1.manifestFile = env.manifestFile ∧
    (fm.tagDeleteFails = false →
      (create_checkpoint env fm now step_id).1.tags = env.tags) := by
  have hnotmem : mkTag step_id ∉ env.tags := by
    intro hmem
    have h2 : env.tags.contains (mkTag step_id) = true :=
      List.elem_eq_true_of_mem hmem
    rw [h2] at hfresh
    cases hfresh
  have hrec : ∃ e, checkpoint_record_tag
      { env with tags := env.tags ++ [mkTag step_id] } fm (mkTag step_id) =
        .error e := by
    unfold checkpoint_record_tag load_manifest_unlocked
    dsimp only
    cases hmf : env.manifestFile with
    | absent => exact ⟨_, rfl⟩
    | corruptFile s => exact ⟨_, rfl⟩
    | valid m =>
      rw [hmf] at hfail
      simp [isValidFile] at hfail
      rw [hfail]
      exact ⟨_, rfl⟩
  obtain ⟨e, hrec⟩ := hrec
  unfold create_checkpoint
  rw [if_neg (by simp [hv]), if_neg (by simp [hcf, hnotmem])]
  dsimp only
  rw [hrec]
  dsimp only
  refine ⟨⟨e, by cases hd : fm.tagDeleteFails <;> simp [hd]⟩,
    by cases hd : fm.tagDeleteFails <;> simp [hd], ?_⟩
  intro hdel
  rw [hdel]
  simp only [Bool.false_eq_true, if_false]
  rw [List.erase_append_right _ hnotmem, List.erase_cons_head, List.append_nil]

/-- C6 witness: with an absent manifest file, seven default failure
flags and a fresh tag, the compensation behaves as stated. -/
theorem C6_checkpoint_compensation_witness :
    (∃ e, (create_checkpoint envC6 {} "t1" "s1").2 = .error e) ∧
    (create_checkpoint envC6 {} "t1" "s1").1.manifestFile = envC6.manifestFile ∧
    (({} : FailureModel).tagDeleteFails = false →
      (create_checkpoint envC6 {} "t1" "s1").1.tags = envC6.tags) :=
  C6_checkpoint_compensation envC6 {} "t1" "s1" (by decide) rfl (by decide) (by decide)

/-- C7: for every manifest that loads, get_progress returns a summary
without raising even when features.json and migration-plan.json are
both absent, with zeroed feature and step counts; and when the last
checkpoint tag has a step component whose metadata file is missing,
the summary carries the partial record of the tag with empty step_id
and timestamp. -/
theorem C7_progress_resilient (env : Env) (mid : String) (m : Manifest)
    (hm : env.manifestFile = .valid m)
    (hf : env.featuresFile = .absent)
    (hp : env.planFile = .absent) :
    ∃ p, get_progress env mid = .ok p ∧
      p.features_total = 0 ∧ p.features_passing = 0 ∧
      p.steps_total = 0 ∧ p.steps_completed = 0 ∧ p.steps_current = 0 ∧
      p.current_step = none ∧
      (∀ last_tag cp_step, m.checkpoints.getLast? = some last_tag →
        (pySplitSlash last_tag).get? 1 = some cp_step →
        alookup env.cpMeta cp_step = none →
        p.last_checkpoint = some ⟨last_tag, "", ""⟩) := by
  unfold get_progress load_manifest_unlocked load_features load_plan
  rw [hm, hf, hp]
  dsimp only
  refine ⟨_, rfl, rfl, rfl, rfl, rfl, rfl, rfl, ?_⟩
  intro last_tag cp_step h1 h2 h3
  dsimp only
  rw [h1]
  dsimp only
  rw [h2]
  dsimp only
  rw [h3]

/-- C7 witness: concrete manifest with one checkpoint, no artifacts
and no metadata files. -/
theorem C7_progress_resilient_witness :
    ∃ p, get_progress envW7 "mig" = .ok p ∧
      p.features_total = 0 ∧ p.features_passing = 0 ∧
      p.steps_total = 0 ∧ p.steps_completed = 0 ∧ p.steps_current = 0 ∧
      p.current_step = none ∧
      p.last_checkpoint = some ⟨"loki-migrate/s1/pre", "", ""⟩ := by
  obtain ⟨p, h1, h2, h3, h4, h5, h6, h7, h8⟩ :=
    C7_progress_resilient envW7 "mig" mW7 rfl rfl rfl
  exact ⟨p, h1, h2, h3, h4, h5, h6, h7,
    h8 "loki-migrate/s1/pre" "s1" (by decide) (by decide) (by decide)⟩

/-- The registry scan returns exactly one entry per well-shaped
manifest when no child makes it raise. -/
lemma list_migrations_scan_ok (l : List (String × DirChild))
    (h : ∀ c ∈ l, childOk c.2 = true) :
    ∃ es, list_migrations_scan l = .ok es ∧
      es.length = (l.filter (fun c => childListed c.2)).length := by
  induction l with
  | nil => exact ⟨[], rfl, rfl⟩
  | cons hd tl ih =>
    obtain ⟨es, hes, hlen⟩ := ih (fun c hc => h c (List.mem_cons_of_mem hd hc))
    rcases hd with ⟨name, child⟩
    cases child with
    | notDir =>
      exact ⟨es, by simp [list_migrations_scan, hes],
        by simp [childListed, hlen]⟩
    | noManifest =>
      exact ⟨es, by simp [list_migrations_scan, hes],
        by simp [childListed, hlen]⟩
    | withManifest f =>
      cases f with
      | invalidJson s =>
        exact ⟨es, by simp [list_migrations_scan, hes],
          by simp [childListed, hlen]⟩
      | badShape =>
        have := h ⟨name, .withManifest .badShape⟩ (List.mem_cons_self _ _)
        simp [childOk] at this
      | parsed d =>
        refine ⟨⟨d.id.getD name, d.created_at.getD "", d.source_info, (alookup d.source_info "path").getD "", (alookup d.target_info "target").getD "", reg_status_scan d.phases PHASE_ORDER "pending"⟩ :: es, ?_, ?_⟩
        · simp [list_migrations_scan, hes]
        · simp [childListed, hlen]

/-- C8 counterexample: a manifest.json that is valid JSON of the wrong
shape makes list_migrations raise AttributeError rather than being
skipped, aborting the whole listing. -/
theorem C8_counterexample :
    list_migrations (some rootC8) = .error .attributeError ∧
    (list_migrations (some rootC8)).isOk = false := by
  decide

/-- C8 (amended): over a migrations root whose manifests are either
well-shaped or fail JSON parsing (but none is valid JSON of a shape
that breaks attribute access), list_migrations never raises and
returns exactly one entry per well-shaped manifest; a wrong-shaped
document instead raises AttributeError and aborts the listing. -/
theorem C8_registry_resilient (l : List (String × DirChild))
    (h : ∀ c ∈ l, childOk c.2 = true) :
    ∃ es, list_migrations (some l) = .ok es ∧
      es.length = (l.filter (fun c => childListed c.2)).length := by
  have hperm : (sortByName l).Perm l := List.perm_insertionSort nameLe l
  obtain ⟨es, hes, hlen⟩ := list_migrations_scan_ok (sortByName l)
    (fun c hc => h c (hperm.mem_iff.mp hc))
  refine ⟨es, ?_, ?_⟩
  · simp [list_migrations, hes]
  · rw [hlen, (hperm.filter _).length_eq]

/-- C8 witness: a root with one well-shaped manifest, one invalid-JSON
manifest, a directory without manifest and a plain file yields one
entry. -/
theorem C8_registry_resilient_witness :
    ∃ es, list_migrations (some rootC8w) = .ok es ∧
      es.length = (rootC8w.filter (fun c => childListed c.2)).length :=
  C8_registry_resilient rootC8w (by decide)

/-- A successful manifest phase of create_checkpoint loaded a valid
manifest and saved it with the tag appended. -/
lemma checkpoint_record_tag_ok (env1 : Env) (fm : FailureModel) (tag : String)
    (env2 : Env) (h : checkpoint_record_tag env1 fm tag = .ok env2) :
    ∃ m, env1.manifestFile = .valid m ∧
      env2 = { env1 with
        manifestFile := JFile.valid { m with checkpoints := m.checkpoints ++ [tag] } } := by
  unfold checkpoint_record_tag load_manifest_unlocked at h
  cases hm : env1.manifestFile with
  | absent => rw [hm] at h; cases h
  | corruptFile s => rw [hm] at h; cases h
  | valid m =>
    rw [hm] at h
    dsimp only at h
    cases hsf : fm.manifestSaveFails
    · rw [hsf, if_neg Bool.false_ne_true] at h
      injection h with h2
      exact ⟨m, rfl, h2.symm⟩
    · rw [hsf, if_pos rfl] at h
      cases h

/-- rollback_to_checkpoint never changes the modelled state. -/
lemma rollback_env_id (env : Env) (step_id : String) :
    (rollback_to_checkpoint env step_id).1 = env := by
  unfold rollback_to_checkpoint
  split_ifs <;> rfl

/-- One create_checkpoint call whose metadata write succeeds preserves
the checkpoint consistency invariant, whatever else fails. -/
lemma create_preserves_cpInv (env : Env) (fm : FailureModel)
    (now step_id : String)
    (hmw : fm.metaWriteFails = false) (hinv : cpInv env) :
    cpInv (create_checkpoint env fm now step_id).1 := by
  unfold create_checkpoint
  by_cases hv : ¬ valid_step_id step_id = true
  · rw [if_pos hv]; exact hinv
  rw [if_neg hv]
  by_cases hdup : (fm.tagCreateFails || env.tags.contains (mkTag step_id)) = true
  · rw [if_pos hdup]; exact hinv
  rw [if_neg hdup]
  dsimp only
  have hnotmem : mkTag step_id ∉ env.tags := by
    intro hmem
    apply hdup
    have h2 : env.tags.contains (mkTag step_id) = true :=
      List.elem_eq_true_of_mem hmem
    rw [h2]
    simp
  rcases hrec : checkpoint_record_tag
      { env with tags := env.tags ++ [mkTag step_id] } fm (mkTag step_id)
    with e | env2
  · dsimp only
    cases hd : fm.tagDeleteFails
    · rw [if_neg Bool.false_ne_true]
      rw [show ({ env with tags := env.tags ++ [mkTag step_id] } : Env).tags.erase
          (mkTag step_id) = env.tags from by
        dsimp only
        rw [List.erase_append_right _ hnotmem, List.erase_cons_head,
          List.append_nil]]
      intro m hm t ht
      obtain ⟨htag, s, c, hts, hmeta⟩ := hinv m hm t ht
      exact ⟨htag, s, c, hts, hmeta⟩
    · rw [if_pos rfl]
      intro m hm t ht
      obtain ⟨htag, s, c, hts, hmeta⟩ := hinv m hm t ht
      exact ⟨List.mem_append_left _ htag, s, c, hts, hmeta⟩
  · obtain ⟨m, hm1, henv2⟩ := checkpoint_record_tag_ok _ fm _ env2 hrec
    dsimp only at hm1
    subst henv2
    dsimp only
    rw [hmw, if_neg Bool.false_ne_true]
    dsimp only
    intro m' hm' t ht
    injection hm' with hm2
    rw [← hm2] at ht
    dsimp only at ht
    rcases List.mem_append.mp ht with hold | hnew
    · obtain ⟨htag, s, c, hts, hmeta⟩ := hinv m hm1 t hold
      have hsne : (step_id == s) = false := by
        by_cases hss : s = step_id
        · subst hss
          rw [hts] at htag
          exact absurd htag hnotmem
        · exact beq_eq_false_iff_ne.mpr (fun hh => hss hh.symm)
      refine ⟨List.mem_append_left _ htag, s, c, hts, ?_⟩
      simpa [alookup, hsne] using hmeta
    · have ht2 : t = mkTag step_id := by simpa using hnew
      subst ht2
      refine ⟨List.mem_append_right _ (by simp), step_id, now, rfl, ?_⟩
      simp [alookup]

/-- C9 counterexample: a create_checkpoint call whose metadata write
fails persists the manifest entry and leaves the tag, but no metadata
file exists for the step, violating the claimed one-to-one
correspondence in a reachable state. -/
theorem C9_counterexample :
    ReachCp envViol9 ∧ ¬ cpInv envViol9 := by
  constructor
  · exact ReachCp.create (mkEnv (.valid mInit)) { metaWriteFails := true }
      "t1" "s1" (ReachCp.init (mkEnv (.valid mInit)) "mig" "t0" "p" "u" "r" rfl)
  · intro hinv
    obtain ⟨hmem, s, c, hts, hmeta⟩ :=
      hinv mViol9 (by decide) "loki-migrate/s1/pre" (by decide)
    rw [show envViol9.cpMeta = [] from by decide] at hmeta
    simp [alookup] at hmeta

/-- C9 (amended): in every environment reachable by checkpoint
operations whose metadata writes succeed, each entry of the persisted
checkpoint list is an existing tag of the form loki-migrate/s/pre with
a metadata file recording that step and tag; a failed metadata write
breaks the correspondence because the manifest is saved first. -/
theorem C9_checkpoint_invariant (env : Env) (h : ReachCpMetaOk env) :
    cpInv env := by
  induction h with
  | init env mid ts cp st tg hm =>
    intro m hm2 t ht
    rw [hm] at hm2
    injection hm2 with hm3
    rw [← hm3] at ht
    simp [create_manifest_value] at ht
  | create env fm now step_id hr hmw ih =>
    exact create_preserves_cpInv env fm now step_id hmw ih
  | rollback env step_id hr ih =>
    rw [rollback_env_id env step_id]
    exact ih

/-- C9 witness: the invariant instantiated after one fully successful
create_checkpoint call. -/
theorem C9_checkpoint_invariant_witness : cpInv envW9 :=
  C9_checkpoint_invariant envW9
    (ReachCpMetaOk.create (mkEnv (.valid mInit)) {} "t1" "s1"
      (ReachCpMetaOk.init (mkEnv (.valid mInit)) "mig" "t0" "p" "u" "r" rfl) rfl)

end MigrationEngine
